import Mathlib

/-!
Verification of the Tsallis exoplanet-probability calculator (`app.py`).

The numeric core `calculate_exoplanet_probability` is embedded over `ℝ`
(`np.power` on positive bases is `Real.rpow`, `np.exp` is `Real.exp`), and
Python's `f"{x:.2f}"` formatting is embedded as an explicit round-half-even
to hundredths followed by decimal rendering.
-/

namespace ExoApp

/-- Q_INDEX constant from `app.py`. -/
noncomputable def Q_INDEX : ℝ := 1.8591

/-- KAPPA constant from `app.py`. -/
noncomputable def KAPPA : ℝ := 0.2121

/-- A_MET constant from `app.py`. -/
noncomputable def A_MET : ℝ := 1.0789

/-- ALPHA_MASS constant from `app.py`. -/
noncomputable def ALPHA_MASS : ℝ := 0.9825

/-- BETA_MASS constant from `app.py`. -/
noncomputable def BETA_MASS : ℝ := 2.2413

/-- `Z_term = np.power(10.0, A_MET * Z)`. -/
noncomputable def Z_term (Z : ℝ) : ℝ := (10 : ℝ) ^ (A_MET * Z)

/-- `M_term = np.power(max(M, 1e-5), ALPHA_MASS) * np.exp(-BETA_MASS * M)`. -/
noncomputable def M_term (M : ℝ) : ℝ :=
  (max M 1e-5) ^ ALPHA_MASS * Real.exp (-BETA_MASS * M)

/-- `Phi = KAPPA * Z_term * M_term`. -/
noncomputable def Phi (M Z : ℝ) : ℝ := KAPPA * Z_term Z * M_term M

/-- `base = 1.0 - (1.0 - Q_INDEX) * Phi`. -/
noncomputable def base (M Z : ℝ) : ℝ := 1 - (1 - Q_INDEX) * Phi M Z

/-- The value of `base` after the `if base <= 0: base = 0.0` clamp. -/
noncomputable def clampedBase (M Z : ℝ) : ℝ :=
  if base M Z ≤ 0 then 0 else base M Z

/-- `eq_minus_Phi = np.power(base, 1.0 / (1.0 - Q_INDEX))`. -/
noncomputable def eq_minus_Phi (M Z : ℝ) : ℝ :=
  (clampedBase M Z) ^ (1 / (1 - Q_INDEX))

/-- `P = 1.0 - eq_minus_Phi`. -/
noncomputable def P (M Z : ℝ) : ℝ := 1 - eq_minus_Phi M Z

/-- `P_percent = P * 100`. -/
noncomputable def P_percent (M Z : ℝ) : ℝ := P M Z * 100

/-- The decimal digit character for `n < 10`. -/
def digitChar (n : ℕ) : Char := Char.ofNat (48 + n)

/-- Fuelled decimal rendering of a natural number (most significant digit first). -/
def natDigitsAux : ℕ → ℕ → List Char
  | 0, _ => []
  | fuel + 1, n =>
    if n < 10 then [digitChar n]
    else natDigitsAux fuel (n / 10) ++ [digitChar (n % 10)]

/-- Decimal digits of a natural number, most significant first; `natDigits 0 = ['0']`. -/
def natDigits (n : ℕ) : List Char := natDigitsAux (n + 1) n

/-- Two-digit zero-padded rendering, used for the fractional part (`n < 100`). -/
def pad2 (n : ℕ) : List Char := if n < 10 then ['0', digitChar n] else natDigits n

/-- Render `n` hundredths as a fixed-point decimal string, e.g. `221 ↦ "2.21"`. -/
def fmtHundredths (n : ℕ) : String :=
  ⟨natDigits (n / 100) ++ '.' :: pad2 (n % 100)⟩

/-- Round to the nearest integer, ties to the even neighbour (IEEE-754 /
Python `format` rounding applied to the exact value). -/
noncomputable def roundHalfEven (x : ℝ) : ℤ :=
  if x - ⌊x⌋ < 1 / 2 then ⌊x⌋
  else if 1 / 2 < x - ⌊x⌋ then ⌊x⌋ + 1
  else if ⌊x⌋ % 2 = 0 then ⌊x⌋ else ⌊x⌋ + 1

/-- Python's `f"{x:.2f}"`: round the value to hundredths (half-even) and render
with exactly two fractional digits, with a leading minus sign for negatives. -/
noncomputable def format2f (x : ℝ) : String :=
  if x < 0 then "-" ++ fmtHundredths (roundHalfEven (-x * 100)).toNat
  else fmtHundredths (roundHalfEven (x * 100)).toNat

/-- The full function `calculate_exoplanet_probability` of `app.py`:
the formatted `P_percent` with a trailing percent sign. -/
noncomputable def calculate_exoplanet_probability (stellar_mass metallicity : ℝ) : String :=
  format2f (P_percent stellar_mass metallicity) ++ "%"

/-- The spec's nine-step reference algorithm (§4.1), written from the spec's
words: mEff, zTerm, mTerm, phi, base, clamp, eqMinusPhi, P, formatting. -/
noncomputable def specNineStep (M Z : ℝ) : String :=
  let mEff := max M 1e-5
  let zTerm := (10 : ℝ) ^ ((1.0789 : ℝ) * Z)
  let mTerm := mEff ^ (0.9825 : ℝ) * Real.exp (-(2.2413 : ℝ) * M)
  let phi := (0.2121 : ℝ) * zTerm * mTerm
  let b := 1 - (1 - (1.8591 : ℝ)) * phi
  let bClamped := if b ≤ 0 then (0 : ℝ) else b
  let eqMinusPhi := bClamped ^ (1 / (1 - (1.8591 : ℝ)))
  let Pval := 1 - eqMinusPhi
  format2f (Pval * 100) ++ "%"

/-- A well-formed percentage string: a nonempty run of decimal digits, a dot,
exactly two decimal digits, and a trailing percent sign — and nothing else
(in particular no thousands separators). -/
def WellFormedPercent (s : String) : Prop :=
  ∃ ds fs : List Char, s.data = ds ++ '.' :: (fs ++ ['%']) ∧ ds ≠ [] ∧
    (∀ c ∈ ds, c.isDigit = true) ∧ fs.length = 2 ∧ ∀ c ∈ fs, c.isDigit = true

/-- The metallicity term is strictly positive for every real metallicity. -/
lemma Z_term_pos (Z : ℝ) : 0 < Z_term Z :=
  Real.rpow_pos_of_pos (by norm_num) _

/-- The clamped mass is strictly positive for every real mass. -/
lemma mEff_pos (M : ℝ) : 0 < max M 1e-5 :=
  lt_of_lt_of_le (by norm_num) (le_max_right _ _)

/-- The mass term is strictly positive for every real mass. -/
lemma M_term_pos (M : ℝ) : 0 < M_term M :=
  mul_pos (Real.rpow_pos_of_pos (mEff_pos M) _) (Real.exp_pos _)

/-- The stellar potential is strictly positive for every real input pair. -/
lemma Phi_pos (M Z : ℝ) : 0 < Phi M Z :=
  mul_pos (mul_pos (by norm_num [KAPPA]) (Z_term_pos Z)) (M_term_pos M)

/-- Since `Q_INDEX > 1` and `Phi > 0`, the Tsallis base exceeds `1`. -/
lemma one_lt_base (M Z : ℝ) : 1 < base M Z := by
  have hPhi := Phi_pos M Z
  have hq : (1 : ℝ) - Q_INDEX = -0.8591 := by norm_num [Q_INDEX]
  rw [base, hq]
  nlinarith

/-- The Tsallis base is strictly positive, so the clamp branch is never taken. -/
lemma base_pos (M Z : ℝ) : 0 < base M Z :=
  lt_trans one_pos (one_lt_base M Z)

/-- The `if base <= 0` clamp is the identity on every real input pair. -/
lemma clampedBase_eq (M Z : ℝ) : clampedBase M Z = base M Z :=
  if_neg (not_le.mpr (base_pos M Z))

/-- The fixed Tsallis exponent `1 / (1 - Q_INDEX)` as a rational literal. -/
lemma exponent_eq : (1 : ℝ) / (1 - Q_INDEX) = -(10000 / 8591) := by
  norm_num [Q_INDEX]

/-- The Tsallis exponent is negative. -/
lemma exponent_nonpos : (1 : ℝ) / (1 - Q_INDEX) ≤ 0 := by
  rw [exponent_eq]; norm_num

/-- `eq_minus_Phi` is strictly positive. -/
lemma eq_minus_Phi_pos (M Z : ℝ) : 0 < eq_minus_Phi M Z := by
  rw [eq_minus_Phi, clampedBase_eq]
  exact Real.rpow_pos_of_pos (base_pos M Z) _

/-- `eq_minus_Phi` is at most `1`: a base `≥ 1` raised to a nonpositive power. -/
lemma eq_minus_Phi_le_one (M Z : ℝ) : eq_minus_Phi M Z ≤ 1 := by
  rw [eq_minus_Phi, clampedBase_eq]
  exact Real.rpow_le_one_of_one_le_of_nonpos (le_of_lt (one_lt_base M Z)) exponent_nonpos

/-- The probability lies in `[0, 1)`. -/
lemma P_mem (M Z : ℝ) : 0 ≤ P M Z ∧ P M Z < 1 := by
  have h1 := eq_minus_Phi_pos M Z
  have h2 := eq_minus_Phi_le_one M Z
  constructor <;> [skip; skip] <;> rw [P] <;> linarith

/-- The percentage value lies in `[0, 100)`. -/
lemma P_percent_mem (M Z : ℝ) : 0 ≤ P_percent M Z ∧ P_percent M Z < 100 := by
  have h := P_mem M Z
  rw [P_percent]
  constructor <;> nlinarith [h.1, h.2]

/-- `digitChar` produces a decimal digit character for inputs below ten. -/
lemma digitChar_isDigit {d : ℕ} (hd : d < 10) : (digitChar d).isDigit = true := by
  interval_cases d <;> decide

/-- The fuelled renderer returns a nonempty all-digit list when the fuel covers
the input. -/
lemma natDigitsAux_spec :
    ∀ fuel n, n < fuel →
      natDigitsAux fuel n ≠ [] ∧ ∀ c ∈ natDigitsAux fuel n, c.isDigit = true := by
  intro fuel
  induction fuel with
  | zero => intro n hn; omega
  | succ fuel ih =>
    intro n hn
    by_cases h10 : n < 10
    · rw [natDigitsAux, if_pos h10]
      refine ⟨by simp, ?_⟩
      intro c hc
      rw [List.mem_singleton] at hc
      subst hc
      exact digitChar_isDigit h10
    · rw [natDigitsAux, if_neg h10]
      have hdiv : n / 10 < fuel := lt_of_lt_of_le (Nat.div_lt_self (by omega) (by omega)) (by omega)
      obtain ⟨hne, hdig⟩ := ih (n / 10) hdiv
      refine ⟨by simp [hne], ?_⟩
      intro c hc
      rw [List.mem_append] at hc
      rcases hc with hc | hc
      · exact hdig c hc
      · rw [List.mem_singleton] at hc
        subst hc
        exact digitChar_isDigit (Nat.mod_lt _ (by omega))

/-- `natDigits` is never empty. -/
lemma natDigits_ne_nil (n : ℕ) : natDigits n ≠ [] :=
  (natDigitsAux_spec (n + 1) n (by omega)).1

/-- Every character of `natDigits` is a decimal digit. -/
lemma natDigits_isDigit (n : ℕ) : ∀ c ∈ natDigits n, c.isDigit = true :=
  (natDigitsAux_spec (n + 1) n (by omega)).2

/-- Single-digit inputs render as their digit character. -/
lemma natDigits_of_lt_ten {n : ℕ} (hn : n < 10) : natDigits n = [digitChar n] := by
  rw [natDigits, natDigitsAux, if_pos hn]

/-- Two-digit inputs render as their two digit characters. -/
lemma natDigits_of_two_digits {n : ℕ} (h1 : 10 ≤ n) (h2 : n < 100) :
    natDigits n = [digitChar (n / 10), digitChar (n % 10)] := by
  rw [natDigits, natDigitsAux, if_neg (by omega)]
  have hdiv : n / 10 < 10 := by omega
  obtain ⟨fuel, hfuel⟩ : ∃ fuel, n = fuel + 1 := ⟨n - 1, by omega⟩
  have : natDigitsAux n (n / 10) = [digitChar (n / 10)] := by
    rw [hfuel, natDigitsAux, if_pos (by omega)]
  rw [this]
  rfl

/-- The padded fractional part always has exactly two characters (for `n < 100`). -/
lemma pad2_length {n : ℕ} (hn : n < 100) : (pad2 n).length = 2 := by
  rw [pad2]
  by_cases h : n < 10
  · rw [if_pos h]; rfl
  · rw [if_neg h, natDigits_of_two_digits (by omega) hn]; rfl

/-- Every character of the padded fractional part is a decimal digit. -/
lemma pad2_isDigit {n : ℕ} (_hn : n < 100) : ∀ c ∈ pad2 n, c.isDigit = true := by
  rw [pad2]
  by_cases h : n < 10
  · rw [if_pos h]
    intro c hc
    rw [List.mem_cons, List.mem_singleton] at hc
    rcases hc with hc | hc
    · subst hc; decide
    · subst hc; exact digitChar_isDigit h
  · rw [if_neg h]
    exact natDigits_isDigit n

/-- String concatenation concatenates the underlying character lists. -/
lemma string_data_append (s t : String) : (s ++ t).data = s.data ++ t.data := rfl

/-- `fmtHundredths n` followed by the percent sign is a well-formed percentage
string. -/
lemma wellFormed_fmtHundredths (n : ℕ) : WellFormedPercent (fmtHundredths n ++ "%") := by
  refine ⟨natDigits (n / 100), pad2 (n % 100), ?_, natDigits_ne_nil _, natDigits_isDigit _,
    pad2_length (Nat.mod_lt _ (by omega)), pad2_isDigit (Nat.mod_lt _ (by omega))⟩
  rw [string_data_append, fmtHundredths]
  simp

/-- `format2f` of a nonnegative value takes the sign-free branch. -/
lemma format2f_of_nonneg {x : ℝ} (hx : 0 ≤ x) :
    format2f x = fmtHundredths (roundHalfEven (x * 100)).toNat :=
  if_neg (not_lt.mpr hx)

/-- Rounding never drops below the floor. -/
lemma floor_le_roundHalfEven (x : ℝ) : ⌊x⌋ ≤ roundHalfEven x := by
  rw [roundHalfEven]
  split
  · exact le_refl _
  · split
    · omega
    · split
      · exact le_refl _
      · omega

/-- Rounding never exceeds the floor plus one. -/
lemma roundHalfEven_le_floor_add_one (x : ℝ) : roundHalfEven x ≤ ⌊x⌋ + 1 := by
  rw [roundHalfEven]
  split
  · omega
  · split
    · exact le_refl _
    · split
      · omega
      · exact le_refl _

/-- Rounding a nonnegative value is nonnegative. -/
lemma roundHalfEven_nonneg {x : ℝ} (hx : 0 ≤ x) : 0 ≤ roundHalfEven x :=
  le_trans (Int.floor_nonneg.mpr hx) (floor_le_roundHalfEven x)

/-- Rounding a value below an integer `k` stays at most `k`. -/
lemma roundHalfEven_le_of_lt {x : ℝ} {k : ℤ} (h : x < k) : roundHalfEven x ≤ k :=
  le_trans (roundHalfEven_le_floor_add_one x) (by have := Int.floor_lt.mpr h; omega)

/-- A value strictly between `k + 1/2` and `k + 1` rounds up to `k + 1`. -/
lemma roundHalfEven_eq_of_gt_half {x : ℝ} {k : ℤ}
    (h1 : (k : ℝ) + 1 / 2 < x) (h2 : x < (k : ℝ) + 1) : roundHalfEven x = k + 1 := by
  have hfl : ⌊x⌋ = k := Int.floor_eq_iff.mpr ⟨by linarith, by linarith⟩
  rw [roundHalfEven, hfl, if_neg (by linarith), if_pos (by linarith)]

/-- The output of `format2f` on a nonnegative value, with the percent sign, is a
well-formed percentage string. -/
lemma wellFormed_format2f {x : ℝ} (hx : 0 ≤ x) :
    WellFormedPercent (format2f x ++ "%") := by
  rw [format2f_of_nonneg hx]
  exact wellFormed_fmtHundredths _

/-- Series bracket for `exp 0.2413` (six terms plus the standard tail bound). -/
lemma exp_0_2413_bounds :
    (1.2729025 : ℝ) ≤ Real.exp 0.2413 ∧ Real.exp 0.2413 ≤ 1.2729029 := by
  have f0 : Nat.factorial 0 = 1 := rfl
  have f1 : Nat.factorial 1 = 1 := rfl
  have f2 : Nat.factorial 2 = 2 := rfl
  have f3 : Nat.factorial 3 = 6 := rfl
  have f4 : Nat.factorial 4 = 24 := rfl
  have f5 : Nat.factorial 5 = 120 := rfl
  have f6 : Nat.factorial 6 = 720 := rfl
  constructor
  · have hs := Real.sum_le_exp_of_nonneg (by norm_num : (0 : ℝ) ≤ 0.2413) 6
    rw [Finset.sum_range_succ, Finset.sum_range_succ, Finset.sum_range_succ,
      Finset.sum_range_succ, Finset.sum_range_succ, Finset.sum_range_succ,
      Finset.sum_range_zero, f0, f1, f2, f3, f4, f5] at hs
    push_cast at hs
    nlinarith [hs]
  · have hs := @Real.exp_bound' 0.2413 (by norm_num) (by norm_num) 6 (by norm_num)
    rw [Finset.sum_range_succ, Finset.sum_range_succ, Finset.sum_range_succ,
      Finset.sum_range_succ, Finset.sum_range_succ, Finset.sum_range_succ,
      Finset.sum_range_zero, f0, f1, f2, f3, f4, f5, f6] at hs
    push_cast at hs
    nlinarith [hs]

/-- Bracket for `exp 2.2413 = exp 1 * exp 1 * exp 0.2413`. -/
lemma exp_2_2413_bounds :
    (9.405547 : ℝ) ≤ Real.exp 2.2413 ∧ Real.exp 2.2413 ≤ 9.405551 := by
  have hsplit : Real.exp 2.2413 = Real.exp 1 * Real.exp 1 * Real.exp 0.2413 := by
    rw [← Real.exp_add, ← Real.exp_add]
    norm_num
  have he1 : (2.7182818283 : ℝ) ≤ Real.exp 1 := le_of_lt Real.exp_one_gt_d9
  have he2 : Real.exp 1 ≤ (2.7182818286 : ℝ) := le_of_lt Real.exp_one_lt_d9
  have hb := exp_0_2413_bounds
  have hpos : (0 : ℝ) < Real.exp 1 := Real.exp_pos 1
  have hpos2 : (0 : ℝ) < Real.exp 0.2413 := Real.exp_pos 0.2413
  rw [hsplit]
  constructor
  · nlinarith [hb.1, hb.2]
  · nlinarith [hb.1, hb.2]

/-- Bracket for `exp (-2.2413)`, the mass-term exponential at `M = 1`. -/
lemma exp_neg_2_2413_bounds :
    (0.10632015 : ℝ) ≤ Real.exp (-2.2413) ∧ Real.exp (-2.2413) ≤ 0.10632026 := by
  have h := exp_2_2413_bounds
  have hpos : (0 : ℝ) < Real.exp 2.2413 := Real.exp_pos 2.2413
  rw [Real.exp_neg]
  constructor
  · have h1 : (9.405551 : ℝ)⁻¹ ≤ (Real.exp 2.2413)⁻¹ := inv_anti₀ hpos h.2
    have h2 : (0.10632015 : ℝ) ≤ (9.405551 : ℝ)⁻¹ := by norm_num
    linarith
  · have h1 : (Real.exp 2.2413)⁻¹ ≤ (9.405547 : ℝ)⁻¹ :=
      inv_anti₀ (by norm_num) h.1
    have h2 : ((9.405547 : ℝ))⁻¹ ≤ 0.10632026 := by norm_num
    linarith

/-- At the solar reference point the base reduces to
`1 + (0.8591 * 0.2121) * exp (-2.2413)`. -/
lemma base_one_zero : base 1 0 = 1 + 0.18221511 * Real.exp (-2.2413) := by
  have hz : Z_term 0 = 1 := by
    rw [Z_term, mul_zero, Real.rpow_zero]
  have hm : M_term 1 = Real.exp (-2.2413) := by
    rw [M_term, max_eq_left (by norm_num : (1e-5 : ℝ) ≤ 1), Real.one_rpow, one_mul]
    norm_num [BETA_MASS]
  rw [base, Phi, hz, hm, Q_INDEX, KAPPA]
  ring

/-- Rational bracket for the base at the solar reference point. -/
lemma base_one_zero_bounds :
    (1.01937311 : ℝ) ≤ base 1 0 ∧ base 1 0 ≤ 1.01937321 := by
  have h := exp_neg_2_2413_bounds
  rw [base_one_zero]
  constructor <;> linarith [h.1, h.2]

/-- Rational bracket for `log (base 1 0)` via the degree-three Taylor
polynomial of `log (1 - x)` with the standard tail bound. -/
lemma log_base_one_zero_bounds :
    (0.01918770 : ℝ) ≤ Real.log (base 1 0) ∧ Real.log (base 1 0) ≤ 0.01918815 := by
  have hb := base_one_zero_bounds
  have hx1 : -0.01937321 ≤ 1 - base 1 0 := by linarith [hb.2]
  have hx2 : 1 - base 1 0 ≤ -0.01937311 := by linarith [hb.1]
  have habs : |1 - base 1 0| ≤ 0.01937321 := abs_le.mpr ⟨hx1, by linarith⟩
  have habs_lt : |1 - base 1 0| < 1 := lt_of_le_of_lt habs (by norm_num)
  have h := Real.abs_log_sub_add_sum_range_le habs_lt 3
  rw [Finset.sum_range_succ, Finset.sum_range_succ, Finset.sum_range_succ,
    Finset.sum_range_zero] at h
  have hbase : (1 : ℝ) - (1 - base 1 0) = base 1 0 := by ring
  rw [hbase] at h
  push_cast at h
  rw [abs_le] at h
  have hRHS : |1 - base 1 0| ^ 4 / (1 - |1 - base 1 0|) ≤ 0.00000015 := by
    have h4 : |1 - base 1 0| ^ 4 ≤ 0.01937321 ^ 4 :=
      pow_le_pow_left₀ (abs_nonneg _) habs 4
    have hden : (0.98 : ℝ) ≤ 1 - |1 - base 1 0| := by linarith [habs]
    calc |1 - base 1 0| ^ 4 / (1 - |1 - base 1 0|)
        ≤ (0.01937321 : ℝ) ^ 4 / 0.98 :=
          div_le_div₀ (by norm_num) h4 (by norm_num) hden
      _ ≤ 0.00000015 := by norm_num
  set x : ℝ := 1 - base 1 0 with hxdef
  have hs1 : (x + 0.01937311) * x ^ 2 ≤ 0 :=
    mul_nonpos_of_nonpos_of_nonneg (by linarith) (sq_nonneg x)
  have hs2 : 0 ≤ (x + 0.01937321) * x ^ 2 :=
    mul_nonneg (by linarith) (sq_nonneg x)
  have hx2ub : x ^ 2 ≤ 0.01937321 ^ 2 := by nlinarith
  have hx2lb : (0.01937311 : ℝ) ^ 2 ≤ x ^ 2 := by nlinarith
  have hx3ub : x ^ 3 ≤ -(0.01937311 ^ 3 : ℝ) := by nlinarith [hs1, hx2lb]
  have hx3lb : -(0.01937321 ^ 3 : ℝ) ≤ x ^ 3 := by nlinarith [hs2, hx2ub]
  constructor
  · have hlow := h.1
    nlinarith [hRHS, hx2ub, hx3lb]
  · have hhigh := h.2
    nlinarith [hRHS, hx2lb, hx3ub]

/-- Rational bracket for `eq_minus_Phi` at the solar reference point. -/
lemma eq_minus_Phi_one_zero_bounds :
    (0.9779 : ℝ) < eq_minus_Phi 1 0 ∧ eq_minus_Phi 1 0 < 0.97795 := by
  have hL := log_base_one_zero_bounds
  rw [eq_minus_Phi, clampedBase_eq, exponent_eq,
    Real.rpow_def_of_pos (base_pos 1 0)]
  have harg_lb : -(0.0223370 : ℝ) ≤ Real.log (base 1 0) * -(10000 / 8591) := by
    have := hL.2
    nlinarith
  have harg_ub : Real.log (base 1 0) * -(10000 / 8591) ≤ -(0.0223335 : ℝ) := by
    have := hL.1
    nlinarith
  constructor
  · have hm : Real.exp (-(0.0223370 : ℝ)) ≤
        Real.exp (Real.log (base 1 0) * -(10000 / 8591)) :=
      Real.exp_le_exp.mpr harg_lb
    have hub : Real.exp (0.0223370 : ℝ) ≤ 1.0225891 := by
      have hs := @Real.exp_bound' 0.0223370 (by norm_num) (by norm_num) 3 (by norm_num)
      have f0 : Nat.factorial 0 = 1 := rfl
      have f1 : Nat.factorial 1 = 1 := rfl
      have f2 : Nat.factorial 2 = 2 := rfl
      have f3 : Nat.factorial 3 = 6 := rfl
      rw [Finset.sum_range_succ, Finset.sum_range_succ, Finset.sum_range_succ,
        Finset.sum_range_zero, f0, f1, f2, f3] at hs
      push_cast at hs
      nlinarith [hs]
    have hinv : (1.0225891 : ℝ)⁻¹ ≤ Real.exp (-(0.0223370 : ℝ)) := by
      rw [Real.exp_neg]
      exact inv_anti₀ (Real.exp_pos _) hub
    have : (0.9779 : ℝ) < (1.0225891 : ℝ)⁻¹ := by norm_num
    linarith
  · have hm : Real.exp (Real.log (base 1 0) * -(10000 / 8591)) ≤
        Real.exp (-(0.0223335 : ℝ)) :=
      Real.exp_le_exp.mpr harg_ub
    have hlb : (1.0225828 : ℝ) ≤ Real.exp (0.0223335 : ℝ) := by
      have hs := Real.sum_le_exp_of_nonneg (by norm_num : (0 : ℝ) ≤ 0.0223335) 3
      have f0 : Nat.factorial 0 = 1 := rfl
      have f1 : Nat.factorial 1 = 1 := rfl
      have f2 : Nat.factorial 2 = 2 := rfl
      rw [Finset.sum_range_succ, Finset.sum_range_succ, Finset.sum_range_succ,
        Finset.sum_range_zero, f0, f1, f2] at hs
      push_cast at hs
      nlinarith [hs]
    have hinv : Real.exp (-(0.0223335 : ℝ)) ≤ (1.0225828 : ℝ)⁻¹ := by
      rw [Real.exp_neg]
      exact inv_anti₀ (by norm_num) hlb
    have : ((1.0225828 : ℝ))⁻¹ < 0.97795 := by norm_num
    linarith

/-- The hundredths input to the rounding step at the solar reference point lies
strictly between `220.5` and `221`. -/
lemma P_percent_one_zero_bounds :
    (220.5 : ℝ) < P_percent 1 0 * 100 ∧ P_percent 1 0 * 100 < 221 := by
  have h := eq_minus_Phi_one_zero_bounds
  rw [P_percent, P]
  constructor <;> nlinarith [h.1, h.2]

/-- The rounding step at the solar reference point produces `221` hundredths. -/
lemma round_one_zero : roundHalfEven (P_percent 1 0 * 100) = 221 := by
  have h := P_percent_one_zero_bounds
  have h1 : ((220 : ℤ) : ℝ) + 1 / 2 < P_percent 1 0 * 100 := by push_cast; linarith
  have h2 : P_percent 1 0 * 100 < ((220 : ℤ) : ℝ) + 1 := by push_cast; linarith
  rw [roundHalfEven_eq_of_gt_half h1 h2]
  norm_num

/-- The calculator's exact output at the solar reference point. -/
lemma calc_one_zero : calculate_exoplanet_probability 1 0 = "2.21%" := by
  rw [calculate_exoplanet_probability, format2f_of_nonneg (P_percent_mem 1 0).1,
    round_one_zero]
  rfl

/-- Every output of the calculator is a well-formed percentage string. -/
lemma calc_wellFormed (M Z : ℝ) :
    WellFormedPercent (calculate_exoplanet_probability M Z) := by
  rw [calculate_exoplanet_probability]
  exact wellFormed_format2f (P_percent_mem M Z).1

/-- The calculator's output is the rendering of the rounded hundredths value. -/
lemma calc_eq_fmt (M Z : ℝ) :
    calculate_exoplanet_probability M Z =
      fmtHundredths (roundHalfEven (P_percent M Z * 100)).toNat ++ "%" := by
  rw [calculate_exoplanet_probability, format2f_of_nonneg (P_percent_mem M Z).1]

/-- C1: for every real input pair, `calculate_exoplanet_probability` returns
exactly the string produced by the spec's nine-step reference algorithm with
the five published constants. -/
theorem C1_matches_nine_step_reference (M Z : ℝ) :
    calculate_exoplanet_probability M Z = specNineStep M Z := rfl

/-- C2 counterexample: there is no real input pair at all for which the
intermediate `base` is non-positive, so the clamp cannot fire for the
suggested `(M, Z) = (1.0, 5.0)` or any other input. -/
theorem C2_counterexample : ¬ ∃ M Z : ℝ, base M Z ≤ 0 := by
  rintro ⟨M, Z, h⟩
  exact absurd h (not_le.mpr (base_pos M Z))

/-- C2 amended: at the spec's suggested out-of-UI-range input
`(M, Z) = (1.0, 5.0)` — and indeed at every real input pair — `base` is
strictly positive, so the clamp to `0` never fires and `clampedBase = base`. -/
theorem C2_amended_clamp_never_fires :
    (0 : ℝ) < base 1 5 ∧ ∀ M Z : ℝ, 0 < base M Z ∧ clampedBase M Z = base M Z :=
  ⟨base_pos 1 5, fun M Z => ⟨base_pos M Z, clampedBase_eq M Z⟩⟩

/-- C3: the function is total — for every real input pair it returns a
well-formed percentage string; in particular the mass clamp gives
`max 0.1 1e-5 = 0.1` and the call at `(0.1, -1.0)` returns a well-formed
percentage string. -/
theorem C3_total_wellformed :
    (∀ M Z : ℝ, WellFormedPercent (calculate_exoplanet_probability M Z)) ∧
    max (0.1 : ℝ) 1e-5 = 0.1 ∧
    WellFormedPercent (calculate_exoplanet_probability 0.1 (-1)) :=
  ⟨calc_wellFormed, by norm_num, calc_wellFormed 0.1 (-1)⟩

/-- C4 counterexample: at the solar reference point `(1.0, 0.0)` the
calculator does not return `"2.19%"` (the spec's own step values drift: the
true `eqMinusPhi` is about `0.97791`, not `0.97809`). -/
theorem C4_counterexample : calculate_exoplanet_probability 1 0 ≠ "2.19%" := by
  rw [calc_one_zero]
  decide

/-- C4 amended: `calculate_exoplanet_probability (1.0, 0.0)` returns exactly
the string `"2.21%"` (the exact value of `P * 100` lies strictly between
`2.205` and `2.21`, so two-decimal rounding yields `2.21`). -/
theorem C4_amended_solar_reference :
    calculate_exoplanet_probability 1 0 = "2.21%" :=
  calc_one_zero

/-- C5: the power factor of the mass term uses the clamped mass while the
exponential factor uses the raw mass, and for every mass below `1e-5` the two
factors take different mass arguments; the metallicity term uses `Z`
unclamped. -/
theorem C5_mass_clamp_asymmetry :
    ∀ M Z : ℝ, M < 1e-5 →
      max M 1e-5 ≠ M ∧
      M_term M = (max M 1e-5) ^ ALPHA_MASS * Real.exp (-BETA_MASS * M) ∧
      Z_term Z = (10 : ℝ) ^ (A_MET * Z) := by
  intro M Z hM
  refine ⟨?_, rfl, rfl⟩
  rw [max_eq_right (le_of_lt hM)]
  intro h
  rw [← h] at hM
  exact lt_irrefl _ hM

/-- C5 witness: the clamp asymmetry at the concrete mass `M = 0`. -/
theorem C5_mass_clamp_asymmetry_witness :
    (0 : ℝ) < 1e-5 ∧
      (max (0 : ℝ) 1e-5 ≠ 0 ∧
       M_term 0 = (max (0 : ℝ) 1e-5) ^ ALPHA_MASS * Real.exp (-BETA_MASS * 0) ∧
       Z_term 0 = (10 : ℝ) ^ (A_MET * 0)) :=
  ⟨by norm_num, C5_mass_clamp_asymmetry 0 0 (by norm_num)⟩

/-- C6: on the declared UI domain the output is a well-formed percentage
string (matching `^-?\d+\.\d\x7b2\x7d%$`, with no sign and no separators) whose
encoded numeric value lies in `[0, 100]`. -/
theorem C6_output_wellformed_in_range (M Z : ℝ)
    (_hM1 : 0.1 ≤ M) (_hM2 : M ≤ 2.5) (_hZ1 : -1 ≤ Z) (_hZ2 : Z ≤ 0.5) :
    WellFormedPercent (calculate_exoplanet_probability M Z) ∧
    ∃ n : ℕ, calculate_exoplanet_probability M Z = fmtHundredths n ++ "%" ∧
      (0 : ℝ) ≤ (n : ℝ) / 100 ∧ (n : ℝ) / 100 ≤ 100 := by
  refine ⟨calc_wellFormed M Z, (roundHalfEven (P_percent M Z * 100)).toNat,
    calc_eq_fmt M Z, by positivity, ?_⟩
  have hlt : P_percent M Z * 100 < ((10000 : ℤ) : ℝ) := by
    have := (P_percent_mem M Z).2
    push_cast
    nlinarith
  have hle : (roundHalfEven (P_percent M Z * 100)).toNat ≤ 10000 :=
    Int.toNat_le.mpr (roundHalfEven_le_of_lt hlt)
  have : ((roundHalfEven (P_percent M Z * 100)).toNat : ℝ) ≤ 10000 := by
    exact_mod_cast hle
  linarith

/-- C6 witness: the output property at the concrete UI point `(1.0, 0.0)`. -/
theorem C6_output_wellformed_in_range_witness :
    ((0.1 : ℝ) ≤ 1 ∧ (1 : ℝ) ≤ 2.5 ∧ (-1 : ℝ) ≤ 0 ∧ (0 : ℝ) ≤ 0.5) ∧
    (WellFormedPercent (calculate_exoplanet_probability 1 0) ∧
     ∃ n : ℕ, calculate_exoplanet_probability 1 0 = fmtHundredths n ++ "%" ∧
       (0 : ℝ) ≤ (n : ℝ) / 100 ∧ (n : ℝ) / 100 ≤ 100) :=
  ⟨⟨by norm_num, by norm_num, by norm_num, by norm_num⟩,
   C6_output_wellformed_in_range 1 0 (by norm_num) (by norm_num) (by norm_num) (by norm_num)⟩

/-- C7: the calculator is deterministic — two calls on identical inputs return
identical strings (the embedding is a pure function of its two arguments). -/
theorem C7_deterministic (M1 Z1 M2 Z2 : ℝ) (hM : M1 = M2) (hZ : Z1 = Z2) :
    calculate_exoplanet_probability M1 Z1 = calculate_exoplanet_probability M2 Z2 := by
  rw [hM, hZ]

/-- C7 witness: the two-run equality at the concrete input `(1.0, 0.0)`. -/
theorem C7_deterministic_witness :
    calculate_exoplanet_probability 1 0 = calculate_exoplanet_probability 1 0 :=
  C7_deterministic 1 0 1 0 rfl rfl

/-- C8: for every probability `P ∈ [0, 1]`, formatting `P * 100` yields a
string with exactly two digits after the decimal point, a trailing percent
sign, and no thousands separators. -/
theorem C8_format_round_trip (p : ℝ) (h0 : 0 ≤ p) (_h1 : p ≤ 1) :
    WellFormedPercent (format2f (p * 100) ++ "%") :=
  wellFormed_format2f (by nlinarith)

/-- C8 witness: the format property at the concrete probability `p = 0`. -/
theorem C8_format_round_trip_witness :
    (0 : ℝ) ≤ 0 ∧ (0 : ℝ) ≤ 1 ∧ WellFormedPercent (format2f ((0 : ℝ) * 100) ++ "%") :=
  ⟨le_refl 0, by norm_num, C8_format_round_trip 0 (le_refl 0) (by norm_num)⟩

/-- C9: the stellar potential `Phi` is non-negative for every real input pair. -/
theorem C9_phi_nonneg (M Z : ℝ) : 0 ≤ Phi M Z :=
  le_of_lt (Phi_pos M Z)

/-- C10: for every real input pair the base is at least `1`, the clamp branch
is never taken, `eq_minus_Phi` lies in `(0, 1]`, and `P` lies in `[0, 1)` —
the `0 ^ negative` singularity is unreachable. -/
theorem C10_singularity_unreachable (M Z : ℝ) :
    1 ≤ base M Z ∧ clampedBase M Z = base M Z ∧
    (0 < eq_minus_Phi M Z ∧ eq_minus_Phi M Z ≤ 1) ∧
    (0 ≤ P M Z ∧ P M Z < 1) :=
  ⟨le_of_lt (one_lt_base M Z), clampedBase_eq M Z,
   ⟨eq_minus_Phi_pos M Z, eq_minus_Phi_le_one M Z⟩, P_mem M Z⟩

end ExoApp
